import Mathlib

/-!
Verification of the `E2EESection` React component
(`react/features/e2ee/components/E2EESection.js`) of jitsi-meet.

The component is embedded shallowly: its props and local state become Lean
structures, its event handlers become pure functions from state to state
(plus an explicit, ordered list of side effects where the handler performs
any), and its `render` method becomes a pure function producing a record of
the observable rendered output.  The React lifecycle is made explicit: the
framework invokes `getDerivedStateFromProps` immediately before every
render, whether that render was caused by a prop change or by the
component's own `setState`.
-/

namespace E2EESection

/-- The props of the component, as declared in its `Props` flow type.
`dispatch` is modelled at the boundary (the dispatched actions are recorded
as effects), and `t` is the translation function the component receives. -/
structure Props where
  _enabled : Bool
  _everyoneSupportE2EE : Bool
  t : String → String

/-- The local state of the component, as declared in its `State` flow type. -/
structure State where
  enabled : Bool
  expand : Bool
deriving DecidableEq, Repr

/-- The partial state object returned by `getDerivedStateFromProps` when it
returns a non-null update: `{ enabled: props._enabled }`. -/
structure DerivedUpdate where
  enabled : Bool
deriving DecidableEq, Repr

/-- `static getDerivedStateFromProps(props, state)`: returns
`{ enabled: props._enabled }` when `props._enabled !== state.enabled`,
and `null` (here `none`) otherwise. -/
def getDerivedStateFromProps (props : Props) (state : State) :
    Option DerivedUpdate :=
  if props._enabled != state.enabled then
    some { enabled := props._enabled }
  else
    none

/-- React merges a non-null partial state returned by
`getDerivedStateFromProps` into the current state; `null` leaves the state
untouched. -/
def applyDerived (state : State) : Option DerivedUpdate → State
  | none => state
  | some u => { state with enabled := u.enabled }

/-- `constructor(props)`: `this.state = { enabled: false, expand: false }`,
independent of the props. -/
def initialState (_props : Props) : State :=
  { enabled := false, expand := false }

/-- An analytics event, modelled at the boundary by the string argument the
component passes to `createE2EEEvent`. -/
structure AnalyticsEvent where
  payload : String
deriving DecidableEq, Repr

/-- `createE2EEEvent` from the analytics feature, modelled at the boundary:
it packages the action string it is given. -/
def createE2EEEvent (action : String) : AnalyticsEvent :=
  { payload := action }

/-- JavaScript `String(b)` for a boolean. -/
def boolToJSString (b : Bool) : String :=
  if b then "true" else "false"

/-- The side effects a handler of this component can perform, in the order
it performs them: a `setState` updating `enabled`, a `sendAnalytics` call,
and a redux `dispatch` of `toggleE2EE(newValue)` (modelled at the boundary
by the boolean the action carries). -/
inductive Effect where
  | setStateEnabled (b : Bool)
  | sendAnalytics (e : AnalyticsEvent)
  | dispatchToggleE2EE (b : Bool)
deriving DecidableEq, Repr

/-- `_onToggle()`: computes `newValue = !this.state.enabled`, then
`setState({ enabled: newValue })`, then
`sendAnalytics(createE2EEEvent('enabled.' + String(newValue)))`, then
`dispatch(toggleE2EE(newValue))` — returned as the ordered effect list. -/
def _onToggle (state : State) : List Effect :=
  let newValue := !state.enabled
  [ Effect.setStateEnabled newValue
  , Effect.sendAnalytics (createE2EEEvent ("enabled." ++ boolToJSString newValue))
  , Effect.dispatchToggleE2EE newValue ]

/-- How a single effect acts on the local state: only `setState` touches it;
analytics and dispatch are fire-and-forget. -/
def applyEffect (state : State) : Effect → State
  | Effect.setStateEnabled b => { state with enabled := b }
  | Effect.sendAnalytics _ => state
  | Effect.dispatchToggleE2EE _ => state

/-- Apply an ordered effect list to the local state. -/
def applyEffects (state : State) (effects : List Effect) : State :=
  effects.foldl applyEffect state

/-- The analytics events contained in an effect list, in order. -/
def analyticsOf (effects : List Effect) : List AnalyticsEvent :=
  effects.filterMap fun e =>
    match e with
    | Effect.sendAnalytics a => some a
    | _ => none

/-- The booleans dispatched (via `toggleE2EE`) in an effect list, in order. -/
def dispatchesOf (effects : List Effect) : List Bool :=
  effects.filterMap fun e =>
    match e with
    | Effect.dispatchToggleE2EE b => some b
    | _ => none

/-- `_onExpand()`: `setState({ expand: true })`. -/
def _onExpand (state : State) : State :=
  { state with expand := true }

/-- The key-press event object, reduced to the one field the handler
reads: `e.key`. -/
structure KeyboardEvent where
  key : String

/-- What `_onExpandKeyPress` does with an event: whether it called
`e.preventDefault()`, and the resulting local state. -/
structure KeyPressResult where
  defaultPrevented : Bool
  state : State
deriving DecidableEq, Repr

/-- `_onExpandKeyPress(e)`: if `e.key === ' ' || e.key === 'Enter'`,
call `e.preventDefault()` and `this._onExpand()`; otherwise do nothing. -/
def _onExpandKeyPress (e : KeyboardEvent) (state : State) : KeyPressResult :=
  if e.key == " " || e.key == "Enter" then
    { defaultPrevented := true, state := _onExpand state }
  else
    { defaultPrevented := false, state := state }

/-- JavaScript `s.substring(start, stop)` at the character level: clamp and
swap the indices, then take the characters in between. -/
def jsSubstring (s : String) (start stop : Nat) : String :=
  String.mk (((s.toList).drop (min start stop)).take (max start stop - min start stop))

/-- The observable attributes of the "read more" `span` rendered while the
description is collapsed. -/
structure ReadMoreSpan where
  ariaControls : String
  ariaExpanded : Bool
  className : String
  hasOnClick : Bool
  hasOnKeyPress : Bool
  role : String
  tabIndex : Int
  text : String
deriving DecidableEq, Repr

/-- The observable output of `render()`: the description text shown, the
optional "read more" affordance, the optional warning text, the switch
label, and the value displayed by the `Switch` control. -/
structure RenderOutput where
  descriptionText : String
  readMore : Option ReadMoreSpan
  warning : Option String
  labelText : String
  switchValue : Bool
deriving DecidableEq, Repr

/-- `render()`: reads `_everyoneSupportE2EE` and `t` from the props and
`enabled`, `expand` from the state; shows the full description when
`expand`, the first 100 characters plus the "read more" span otherwise;
shows the warning span iff `!_everyoneSupportE2EE`; always shows the label
and a `Switch` whose value is the local `enabled`. -/
def render (props : Props) (state : State) : RenderOutput :=
  let description := props.t "dialog.e2eeDescription"
  { descriptionText :=
      if state.expand then description else jsSubstring description 0 100
  , readMore :=
      if state.expand then
        none
      else
        some { ariaControls := "e2ee-section-description"
             , ariaExpanded := state.expand
             , className := "read-more"
             , hasOnClick := true
             , hasOnKeyPress := true
             , role := "button"
             , tabIndex := 0
             , text := "... " ++ props.t "dialog.readMore" }
  , warning :=
      if !props._everyoneSupportE2EE then
        some (props.t "dialog.e2eeWarning")
      else
        none
  , labelText := props.t "dialog.e2eeLabel"
  , switchValue := state.enabled }

/-! ## Lifecycle model

A mounted component instance is its current props together with its local
state.  React invokes `getDerivedStateFromProps` right before every render,
on every update — whether the update came from new props or from the
component's own `setState` — so each event below ends with a derivation pass
against the props in force at that moment. -/

/-- A mounted instance: current props plus current local state. -/
structure Mounted where
  props : Props
  state : State

/-- The derivation pass React performs immediately before each render. -/
def deriveBeforeRender (props : Props) (state : State) : State :=
  applyDerived state (getDerivedStateFromProps props state)

/-- Mounting: construct the initial state, then derive before the first
render. -/
def mount (props : Props) : Mounted :=
  { props := props, state := deriveBeforeRender props (initialState props) }

/-- The discrete events a mounted instance can experience: the external
store changing the `_enabled` prop, the user toggling the switch, the user
clicking "read more", and a key press on "read more". -/
inductive Event where
  | extUpdate (b : Bool)
  | toggle
  | expandClick
  | keyPress (k : String)

/-- One event followed by its re-render (and therefore by a derivation
pass against the props then in force). -/
def stepEvent (e : Event) (m : Mounted) : Mounted :=
  match e with
  | Event.extUpdate b =>
      let props := { m.props with _enabled := b }
      { props := props, state := deriveBeforeRender props m.state }
  | Event.toggle =>
      { m with state :=
          deriveBeforeRender m.props (applyEffects m.state (_onToggle m.state)) }
  | Event.expandClick =>
      { m with state := deriveBeforeRender m.props (_onExpand m.state) }
  | Event.keyPress k =>
      { m with state :=
          deriveBeforeRender m.props (_onExpandKeyPress { key := k } m.state).state }

/-- Run a mounted instance through a sequence of events. -/
def run (props : Props) (events : List Event) : Mounted :=
  events.foldl (fun m e => stepEvent e m) (mount props)

/-- The most recent externally supplied `enabled` value after a sequence of
events (the initial prop value when no external update occurred). -/
def lastExternal (props : Props) (events : List Event) : Bool :=
  events.foldl
    (fun b e =>
      match e with
      | Event.extUpdate v => v
      | _ => b)
    props._enabled

/-- Whether an event commands expansion: a click on "read more", or a key
press whose key is Space or Enter. -/
def expandTrigger : Event → Bool
  | Event.expandClick => true
  | Event.keyPress k => k == " " || k == "Enter"
  | _ => false

/-- Concrete props (identity translation, everyone supports E2EE, feature
off) used to evaluate the development at specific inputs. -/
def idProps : Props :=
  { _enabled := false, _everyoneSupportE2EE := true, t := id }

/-- As `idProps` but with the feature reported enabled externally. -/
def idPropsOn : Props :=
  { _enabled := true, _everyoneSupportE2EE := true, t := id }

/-- Concrete props whose translation always yields a 10-character string. -/
def shortProps : Props :=
  { _enabled := false, _everyoneSupportE2EE := true, t := fun _ => "short text" }

/-- The instance obtained by mounting with `idProps` (external `enabled`
false) and then toggling the switch once, with no external prop update in
between. -/
def toggledOnce : Mounted :=
  stepEvent Event.toggle (mount idProps)

/-! ## Basic lemmas -/

/-- A string is its list of characters. -/
theorem string_mk_toList (s : String) : String.mk s.toList = s := by
  cases s
  rfl

/-- The length of a string is the length of its character list. -/
theorem string_toList_length (s : String) : s.toList.length = s.length := by
  cases s
  rfl

/-- After the derivation pass, the local `enabled` always equals the
`_enabled` prop it was derived against. -/
theorem deriveBeforeRender_enabled (p : Props) (s : State) :
    (deriveBeforeRender p s).enabled = p._enabled := by
  cases hp : p._enabled <;> cases hs : s.enabled <;>
    simp [deriveBeforeRender, getDerivedStateFromProps, applyDerived, hp, hs]

/-- The derivation pass never touches the `expand` flag. -/
theorem deriveBeforeRender_expand (p : Props) (s : State) :
    (deriveBeforeRender p s).expand = s.expand := by
  cases hp : p._enabled <;> cases hs : s.enabled <;>
    simp [deriveBeforeRender, getDerivedStateFromProps, applyDerived, hp, hs]

/-! ## Claims -/

/-- Claim C1: `_onToggle` performs, in order, the optimistic `setState` to
the negation of the current local `enabled`, exactly one analytics event
whose payload renders the new boolean as a string, and exactly one dispatch
carrying the new boolean; applying the effects leaves the state with
`enabled` negated and `expand` untouched. -/
theorem onToggle_spec (s : State) :
    _onToggle s =
      [ Effect.setStateEnabled (!s.enabled)
      , Effect.sendAnalytics
          { payload := "enabled." ++ (if !s.enabled then "true" else "false") }
      , Effect.dispatchToggleE2EE (!s.enabled) ] ∧
    applyEffects s (_onToggle s) = { s with enabled := !s.enabled } ∧
    analyticsOf (_onToggle s) =
      [{ payload := "enabled." ++ (if !s.enabled then "true" else "false") }] ∧
    dispatchesOf (_onToggle s) = [!s.enabled] := by
  obtain ⟨e, x⟩ := s
  cases e <;>
    simp [_onToggle, applyEffects, applyEffect, analyticsOf, dispatchesOf,
      createE2EEEvent, boolToJSString, List.filterMap, List.foldl]

/-- Claim C2: on every derivation pass, if the external `_enabled` prop
differs from the local `enabled` state, the derivation returns the update
`{ enabled: props._enabled }` and applying it overwrites only `enabled`;
if they are equal, the derivation returns `null` and the state is left
entirely unchanged. -/
theorem getDerivedStateFromProps_spec (p : Props) (s : State) :
    (p._enabled ≠ s.enabled →
      getDerivedStateFromProps p s = some { enabled := p._enabled } ∧
      applyDerived s (getDerivedStateFromProps p s) =
        { s with enabled := p._enabled }) ∧
    (p._enabled = s.enabled →
      getDerivedStateFromProps p s = none ∧
      applyDerived s (getDerivedStateFromProps p s) = s) := by
  constructor
  · intro h
    have hb : (p._enabled != s.enabled) = true := by
      simpa [bne_iff_ne] using h
    simp [getDerivedStateFromProps, applyDerived, hb]
  · intro h
    simp [getDerivedStateFromProps, applyDerived, h]

/-- Witness for C2 at concrete inputs: differing values produce the
overwriting update, equal values produce no update. -/
theorem getDerivedStateFromProps_spec_witness :
    idPropsOn._enabled ≠ (⟨false, false⟩ : State).enabled ∧
    (getDerivedStateFromProps idPropsOn ⟨false, false⟩ = some { enabled := true } ∧
     applyDerived ⟨false, false⟩ (getDerivedStateFromProps idPropsOn ⟨false, false⟩) =
      { enabled := true, expand := false }) ∧
    idProps._enabled = (⟨false, false⟩ : State).enabled ∧
    (getDerivedStateFromProps idProps ⟨false, false⟩ = none ∧
     applyDerived ⟨false, false⟩ (getDerivedStateFromProps idProps ⟨false, false⟩) =
      ⟨false, false⟩) :=
  ⟨by decide,
   (getDerivedStateFromProps_spec idPropsOn ⟨false, false⟩).1 (by decide),
   rfl,
   (getDerivedStateFromProps_spec idProps ⟨false, false⟩).2 rfl⟩

/-- Claim C6: for every value of the props and local state, the warning
text is present in the rendered output exactly when the external
`_everyoneSupportE2EE` flag is false. -/
theorem render_warning_iff (p : Props) (s : State) :
    ((render p s).warning).isSome = !p._everyoneSupportE2EE := by
  cases h : p._everyoneSupportE2EE <;> simp [render, h]

/-- Claim C8: on creation the local state is exactly
`{ enabled := false, expand := false }` whatever the props are, and the
derivation pass before the first render corrects `enabled` to the external
value (leaving `expand` false). -/
theorem initialState_spec (p : Props) :
    initialState p = { enabled := false, expand := false } ∧
    (deriveBeforeRender p (initialState p)).enabled = p._enabled ∧
    (deriveBeforeRender p (initialState p)).expand = false := by
  refine ⟨rfl, deriveBeforeRender_enabled p (initialState p), ?_⟩
  simpa using deriveBeforeRender_expand p (initialState p)

/-- Claim C3: with `expand = false` the rendered description text is the
first 100 characters of the description, and the "read more" affordance is
rendered with a click handler, a key-press handler, `role = button`,
`tabIndex = 0` (focusable), `aria-expanded` equal to `expand`, and
`aria-controls` naming the description region; with `expand = true` the
full description is rendered and the affordance is absent. -/
theorem render_description_spec (p : Props) (s : State) :
    (s.expand = false →
      (render p s).descriptionText =
        String.mk ((p.t "dialog.e2eeDescription").toList.take 100) ∧
      ∃ rm : ReadMoreSpan,
        (render p s).readMore = some rm ∧
        rm.hasOnClick = true ∧
        rm.hasOnKeyPress = true ∧
        rm.role = "button" ∧
        rm.tabIndex = 0 ∧
        rm.ariaExpanded = s.expand ∧
        rm.ariaControls = "e2ee-section-description" ∧
        rm.text = "... " ++ p.t "dialog.readMore") ∧
    (s.expand = true →
      (render p s).descriptionText = p.t "dialog.e2eeDescription" ∧
      (render p s).readMore = none) := by
  constructor
  · intro h
    refine ⟨by simp [render, jsSubstring, h], ?_⟩
    refine ⟨{ ariaControls := "e2ee-section-description"
            , ariaExpanded := s.expand
            , className := "read-more"
            , hasOnClick := true
            , hasOnKeyPress := true
            , role := "button"
            , tabIndex := 0
            , text := "... " ++ p.t "dialog.readMore" }, ?_, rfl, rfl, rfl, rfl, rfl, rfl, rfl⟩
    simp [render, h]
  · intro h
    simp [render, h]

/-- Witness for C3 at a concrete description and both values of `expand`. -/
theorem render_description_spec_witness :
    ((⟨false, false⟩ : State).expand = false ∧
      ((render idProps ⟨false, false⟩).descriptionText =
        String.mk ((idProps.t "dialog.e2eeDescription").toList.take 100) ∧
       ∃ rm : ReadMoreSpan,
        (render idProps ⟨false, false⟩).readMore = some rm ∧
        rm.hasOnClick = true ∧
        rm.hasOnKeyPress = true ∧
        rm.role = "button" ∧
        rm.tabIndex = 0 ∧
        rm.ariaExpanded = (⟨false, false⟩ : State).expand ∧
        rm.ariaControls = "e2ee-section-description" ∧
        rm.text = "... " ++ idProps.t "dialog.readMore")) ∧
    ((⟨false, true⟩ : State).expand = true ∧
      ((render idProps ⟨false, true⟩).descriptionText =
        idProps.t "dialog.e2eeDescription" ∧
       (render idProps ⟨false, true⟩).readMore = none)) :=
  ⟨⟨rfl, (render_description_spec idProps ⟨false, false⟩).1 rfl⟩,
   ⟨rfl, (render_description_spec idProps ⟨false, true⟩).2 rfl⟩⟩

/-- Claim C4: a key press whose key is `"Enter"` or `" "` suppresses the
default action and sets `expand` to true; any other key leaves the state
unchanged and does not suppress the default action. -/
theorem onExpandKeyPress_spec (e : KeyboardEvent) (s : State) :
    ((e.key = "Enter" ∨ e.key = " ") →
      _onExpandKeyPress e s =
        { defaultPrevented := true, state := { s with expand := true } }) ∧
    (e.key ≠ "Enter" → e.key ≠ " " →
      _onExpandKeyPress e s = { defaultPrevented := false, state := s }) := by
  constructor
  · rintro (h | h) <;> simp [_onExpandKeyPress, _onExpand, h]
  · intro h1 h2
    have hb : (e.key == " " || e.key == "Enter") = false := by
      simp only [Bool.or_eq_false_iff, beq_eq_false_iff_ne, ne_eq]
      exact ⟨h2, h1⟩
    simp [_onExpandKeyPress, hb]

/-- Witness for C4 at the keys `"Enter"`, `" "` and `"a"`. -/
theorem onExpandKeyPress_spec_witness :
    ((("Enter" : String) = "Enter" ∨ ("Enter" : String) = " ") ∧
      _onExpandKeyPress { key := "Enter" } ⟨false, false⟩ =
        { defaultPrevented := true, state := { enabled := false, expand := true } }) ∧
    (((" " : String) = "Enter" ∨ (" " : String) = " ") ∧
      _onExpandKeyPress { key := " " } ⟨true, false⟩ =
        { defaultPrevented := true, state := { enabled := true, expand := true } }) ∧
    (("a" : String) ≠ "Enter" ∧ ("a" : String) ≠ " " ∧
      _onExpandKeyPress { key := "a" } ⟨false, false⟩ =
        { defaultPrevented := false, state := { enabled := false, expand := false } }) :=
  ⟨⟨Or.inl rfl, (onExpandKeyPress_spec { key := "Enter" } ⟨false, false⟩).1 (Or.inl rfl)⟩,
   ⟨Or.inr rfl, (onExpandKeyPress_spec { key := " " } ⟨true, false⟩).1 (Or.inr rfl)⟩,
   ⟨by decide, by decide,
    (onExpandKeyPress_spec { key := "a" } ⟨false, false⟩).2 (by decide) (by decide)⟩⟩

/-- Claim C7: the `expand` flag starts false, the derivation pass and the
toggle effects never touch it, every event can only keep it or raise it to
true (it is raised exactly by an expand click or a Space/Enter key press),
and `_onExpand` is idempotent, so once true it stays true for the rest of
the component's lifetime. -/
theorem expand_monotone_spec :
    (∀ p : Props, (initialState p).expand = false) ∧
    (∀ (p : Props) (s : State), (deriveBeforeRender p s).expand = s.expand) ∧
    (∀ s : State, (applyEffects s (_onToggle s)).expand = s.expand) ∧
    (∀ (e : Event) (m : Mounted),
      (stepEvent e m).state.expand = (m.state.expand || expandTrigger e)) ∧
    (∀ s : State, (_onExpand s).expand = true ∧ _onExpand (_onExpand s) = _onExpand s) := by
  refine ⟨fun _ => rfl, deriveBeforeRender_expand, ?_, ?_, fun s => ⟨rfl, rfl⟩⟩
  · intro s
    simp [applyEffects, _onToggle, applyEffect]
  · intro e m
    cases e with
    | extUpdate b =>
        simp [stepEvent, deriveBeforeRender_expand, expandTrigger]
    | toggle =>
        simp [stepEvent, deriveBeforeRender_expand, expandTrigger, applyEffects,
          _onToggle, applyEffect]
    | expandClick =>
        simp [stepEvent, deriveBeforeRender_expand, expandTrigger, _onExpand]
    | keyPress k =>
        cases hk : (k == " " || k == "Enter") <;>
          simp [stepEvent, deriveBeforeRender_expand, expandTrigger,
            _onExpandKeyPress, _onExpand, hk]

/-- Claim C9: when the description has at most 100 characters and `expand`
is false, the truncated text already equals the entire description, yet the
"read more" affordance is still rendered. -/
theorem truncation_noop_spec (p : Props) (s : State)
    (hlen : (p.t "dialog.e2eeDescription").length ≤ 100)
    (hexp : s.expand = false) :
    (render p s).descriptionText = p.t "dialog.e2eeDescription" ∧
    ((render p s).readMore).isSome = true := by
  constructor
  · have hl : (p.t "dialog.e2eeDescription").toList.length ≤ 100 := by
      rw [string_toList_length]
      exact hlen
    calc (render p s).descriptionText
        = String.mk ((p.t "dialog.e2eeDescription").toList.take 100) := by
          simp [render, jsSubstring, hexp]
      _ = String.mk ((p.t "dialog.e2eeDescription").toList) := by
          rw [List.take_of_length_le hl]
      _ = p.t "dialog.e2eeDescription" := string_mk_toList _
  · simp [render, hexp]

/-- Witness for C9: a 10-character description is rendered in full while
collapsed, and the affordance is still present. -/
theorem truncation_noop_spec_witness :
    (shortProps.t "dialog.e2eeDescription").length ≤ 100 ∧
    (⟨false, false⟩ : State).expand = false ∧
    ((render shortProps ⟨false, false⟩).descriptionText =
      shortProps.t "dialog.e2eeDescription" ∧
     ((render shortProps ⟨false, false⟩).readMore).isSome = true) :=
  ⟨by decide, rfl, truncation_noop_spec shortProps ⟨false, false⟩ (by decide) rfl⟩

/-- Claim C10: rendering is deterministic and reads only
`_everyoneSupportE2EE`, `t`, `enabled` and `expand`: two invocations with
equal values of those inputs produce identical output (in particular the
`_enabled` prop is not read by `render`). -/
theorem render_deterministic (p₁ p₂ : Props) (s₁ s₂ : State)
    (hsup : p₁._everyoneSupportE2EE = p₂._everyoneSupportE2EE)
    (ht : p₁.t = p₂.t) (hs : s₁ = s₂) :
    render p₁ s₁ = render p₂ s₂ := by
  cases p₁
  cases p₂
  cases hs
  cases hsup
  cases ht
  rfl

/-- Witness for C10: two prop records differing only in `_enabled` (with
equal state) render identically. -/
theorem render_deterministic_witness :
    idPropsOn._everyoneSupportE2EE = idProps._everyoneSupportE2EE ∧
    idPropsOn.t = idProps.t ∧
    (⟨false, false⟩ : State) = (⟨false, false⟩ : State) ∧
    render idPropsOn ⟨false, false⟩ = render idProps ⟨false, false⟩ :=
  ⟨rfl, rfl, rfl,
   render_deterministic idPropsOn idProps ⟨false, false⟩ ⟨false, false⟩ rfl rfl rfl⟩

/-! ## The switch value over event sequences (claim C5) -/

/-- Every event ends with a derivation pass against the props then in
force, so after any step the local `enabled` equals the current prop. -/
theorem stepEvent_state_enabled (e : Event) (m : Mounted) :
    (stepEvent e m).state.enabled = (stepEvent e m).props._enabled := by
  cases e <;> simp [stepEvent, deriveBeforeRender_enabled]

/-- The local `enabled` equals the `_enabled` prop after any event fold. -/
theorem foldl_state_enabled (es : List Event) (m : Mounted)
    (h : m.state.enabled = m.props._enabled) :
    (es.foldl (fun m e => stepEvent e m) m).state.enabled =
      (es.foldl (fun m e => stepEvent e m) m).props._enabled := by
  induction es generalizing m with
  | nil => exact h
  | cons e es ih => exact ih _ (stepEvent_state_enabled e m)

/-- Only an external update changes the `_enabled` prop. -/
theorem foldl_props_enabled (es : List Event) (m : Mounted) :
    (es.foldl (fun m e => stepEvent e m) m).props._enabled =
      es.foldl
        (fun b e =>
          match e with
          | Event.extUpdate v => v
          | _ => b)
        m.props._enabled := by
  induction es generalizing m with
  | nil => rfl
  | cons e es ih =>
      have h1 : (stepEvent e m).props._enabled =
          (match e with
           | Event.extUpdate v => v
           | _ => m.props._enabled) := by
        cases e <;> rfl
      simp only [List.foldl]
      rw [ih, h1]

/-- Claim C5 fails as stated: mount with external `enabled = false`, toggle
once, and deliver no external update. The claim says the switch now shows
the toggled value `true`; the code re-runs the derivation pass on the
toggle's own re-render, which overwrites the optimistic value, so the
switch shows `false`. -/
theorem switch_optimistic_counterexample :
    (!(mount idProps).state.enabled) = true ∧
    (render toggledOnce.props toggledOnce.state).switchValue = false ∧
    (render toggledOnce.props toggledOnce.state).switchValue ≠
      (!(mount idProps).state.enabled) :=
  ⟨rfl, rfl, by decide⟩

/-- Claim C5 (amended): the switch always displays the local `enabled`
state, and — because the derivation pass runs before every render,
including the re-render caused by the toggle's own `setState` — after any
event sequence the displayed value equals the most recent externally
supplied `enabled` value; the optimistically toggled value never survives
its own re-render. -/
theorem switch_displays_external (p : Props) (es : List Event) :
    (render (run p es).props (run p es).state).switchValue =
      (run p es).state.enabled ∧
    (run p es).state.enabled = (run p es).props._enabled ∧
    (run p es).props._enabled = lastExternal p es := by
  refine ⟨rfl, ?_, ?_⟩
  · exact foldl_state_enabled es (mount p)
      (deriveBeforeRender_enabled p (initialState p))
  · exact foldl_props_enabled es (mount p)

end E2EESection
